import Mathlib

/-!
# librfm-example: media discovery and blocking orchestration

A shallow embedding of `media-reader.cpp` and of the orchestration functions of
`main.cpp`, followed by the properties proved about them.

Conventions:
* a C string (a `char` buffer up to its terminating NUL) is a `List Char`;
* a `std::string` is a `String`;
* C `int`/`time_t` values are `Int`;
* the file system, libexif and the catalogue are external: what they answer is
  a parameter of the functions that call them.
-/

namespace LibrfmExample

/-! ## Data model (the protobuf messages used by the two source files) -/

/-- The message `rfm::Source`, with the five fields set by `CreateLocalSource`. -/
structure Source where
  type : String
  handle : String
  title : String
  subtitle : String
  category : String
deriving DecidableEq

/-- The message `rfm::Handle`: source type, source handle and item handle. -/
structure Handle where
  source_type : String
  source_handle : String
  handle : String
deriving DecidableEq

/-- The message `rfm::Media_Size`; unset fields keep the protobuf defaults. -/
structure Media_Size where
  url : String := ""
  is_original : Bool := false
  mime_type : String := ""
  width : Int := 0
  height : Int := 0
  file_size : Int := 0
deriving DecidableEq

/-- The message `rfm::Media`; unset fields keep the protobuf defaults. -/
structure Media where
  handle : Handle := ⟨"", "", ""⟩
  filename : String := ""
  original_path : String := ""
  title : String := ""
  captured_at : Int := 0
  sizes : List Media_Size := []
deriving DecidableEq

/-! ## libexif, as far as `media-reader.cpp` uses it -/

/-- The image file directories of an `ExifData` (`ed->ifd[...]`). -/
inductive ExifIfd where
  | EXIF_IFD_0
  | EXIF_IFD_1
  | EXIF_IFD_EXIF
  | EXIF_IFD_GPS
  | EXIF_IFD_INTEROPERABILITY
deriving DecidableEq

/-- An EXIF tag, by its numeric code. -/
abbrev ExifTag := Nat

/-- Tag `EXIF_TAG_DATE_TIME`. -/
def EXIF_TAG_DATE_TIME : ExifTag := 0x0132
/-- Tag `EXIF_TAG_PIXEL_X_DIMENSION`. -/
def EXIF_TAG_PIXEL_X_DIMENSION : ExifTag := 0xa002
/-- Tag `EXIF_TAG_PIXEL_Y_DIMENSION`. -/
def EXIF_TAG_PIXEL_Y_DIMENSION : ExifTag := 0xa003

/-- An `ExifEntry`, reduced to the text libexif renders for its value. -/
structure ExifEntry where
  text : List Char
deriving DecidableEq

/-- An `ExifData`: for each directory, the entry stored under a tag, if any
(the answer of `exif_content_get_entry(ed->ifd[i], tag)`). -/
structure ExifData where
  ifd : ExifIfd → ExifTag → Option ExifEntry

/-- The call `exif_content_get_entry(ed->ifd[i], tag)`: the entry or NULL. -/
def exif_content_get_entry (ed : ExifData) (i : ExifIfd) (tag : ExifTag) :
    Option ExifEntry :=
  ed.ifd i tag

/-- The call `exif_entry_get_value(entry, buf, maxlen)`: the rendered
value as a C string, cut at the first NUL and at `maxlen - 1` characters. -/
def exif_entry_get_value (entry : ExifEntry) (maxlen : Nat) : List Char :=
  (entry.text.takeWhile (fun c => c != Char.ofNat 0)).take (maxlen - 1)

/-! ## C library helpers used by the readers -/

/-- The C `isspace` in the "C" locale. -/
def isspace (c : Char) : Bool :=
  c == ' ' || (9 ≤ c.toNat && c.toNat ≤ 13)

/-- The C `isdigit`. -/
def isdigit (c : Char) : Bool :=
  48 ≤ c.toNat && c.toNat ≤ 57

/-- Value of a decimal digit character (`c - '0'`). -/
def digitVal (c : Char) : Nat :=
  c.toNat - 48

/-- Accumulates the leading decimal digits of a C string onto `acc`. -/
def digitsValue : List Char → Nat → Nat
  | [], acc => acc
  | c :: rest, acc => if isdigit c then digitsValue rest (acc * 10 + digitVal c) else acc

/-- Wraps an integer into the range of a 32-bit `int`. -/
def wrapInt32 (x : Int) : Int :=
  (x + 2 ^ 31) % 2 ^ 32 - 2 ^ 31

/-- The C `strtol(s, NULL, 10)` with a 64-bit `long`: leading white space, an
optional sign, decimal digits; saturates at `LONG_MIN`/`LONG_MAX`. -/
def strtol (s : List Char) : Int :=
  let s := s.dropWhile isspace
  let (neg, s) :=
    match s with
    | '-' :: rest => (true, rest)
    | '+' :: rest => (false, rest)
    | _ => (false, s)
  let v : Int := digitsValue s 0
  if neg then max (-v) (-(2 ^ 63)) else min v (2 ^ 63 - 1)

/-- The C `atoi`, that is `(int) strtol(s, NULL, 10)`. -/
def atoi (s : List Char) : Int :=
  wrapInt32 (strtol s)

/-! ## `media-reader.cpp` -/

/-- The loop of `trim_spaces`: walks the buffer from index `i` and returns the
length to keep, one past the last character that is not a space (`keep` is
`s + 1` of the source, so it starts at `0` for `s = buf - 1`). -/
def trim_spaces_end : List Char → Nat → Nat → Nat
  | [], _, keep => keep
  | c :: rest, i, keep => trim_spaces_end rest (i + 1) (if c != ' ' then i + 1 else keep)

/-- The function `trim_spaces`: NUL-terminates the buffer after its last non-space
character. -/
def trim_spaces (buf : List Char) : List Char :=
  buf.take (trim_spaces_end buf 0 0)

/-- The function `ReadExifInt(ed, tag)`. -/
def ReadExifInt (ed : ExifData) (tag : ExifTag) : Int :=
  match exif_content_get_entry ed ExifIfd.EXIF_IFD_EXIF tag with
  | some entry =>
    let resbuf := trim_spaces (exif_entry_get_value entry 1024)
    if resbuf ≠ [] then atoi resbuf else 0
  | none => 0

/-- The C `struct tm`, with the fields `timegm` reads. -/
structure tm where
  tm_sec : Int
  tm_min : Int
  tm_hour : Int
  tm_mday : Int
  tm_mon : Int
  tm_year : Int
deriving DecidableEq

/-- The result of `memset(&t, 0, sizeof(struct tm))`. -/
def tm.zero : tm := ⟨0, 0, 0, 0, 0, 0⟩

/-- One element of a `strptime` format: white space, an ordinary character, or
a conversion specification `%c`. -/
inductive Directive where
  | space
  | lit (c : Char)
  | conv (c : Char)
deriving DecidableEq

/-- Splits a `strptime` format string into its directives. -/
def parseFormat : List Char → List Directive
  | [] => []
  | '%' :: c :: rest => Directive.conv c :: parseFormat rest
  | c :: rest => (if isspace c then Directive.space else Directive.lit c) :: parseFormat rest

/-- Reads at most `n` decimal digits from the input onto `acc`; returns the value
and the rest of the input. -/
def takeDigits : Nat → List Char → Nat → Nat × List Char
  | 0, buf, acc => (acc, buf)
  | _ + 1, [], acc => (acc, [])
  | n + 1, c :: rest, acc =>
    if isdigit c then takeDigits n rest (acc * 10 + digitVal c) else (acc, c :: rest)

/-- A numeric conversion of `strptime`: the input must start with a digit, at most
`width` digits are read, and the value must lie in `[lo, hi]`. -/
def getNumber (lo hi width : Nat) (buf : List Char) : Option (Nat × List Char) :=
  match buf with
  | [] => none
  | c :: _ =>
    if isdigit c then
      let r := takeDigits width buf 0
      if lo ≤ r.1 ∧ r.1 ≤ hi then some r else none
    else none

/-- The C library `strptime(buf, fmt, &t)` for the directives of the format used
by `ReadExifDate`, after POSIX: white space in the format skips any white space
of the input, an ordinary character must match the next input character, `%Y`
is a year of up to four digits, `%m` a month 1..12, `%d` a day 1..31, `%H` an
hour 0..23, `%M` a minute 0..59 and `%S` a second 0..60, each of up to two digits.
Fields are stored as they are converted, so on failure (first component `none`,
the NULL return) the fields converted so far stay in `t`. -/
def strptime : List Char → List Directive → tm → Option (List Char) × tm
  | buf, [], t => (some buf, t)
  | buf, Directive.space :: fmt, t => strptime (buf.dropWhile isspace) fmt t
  | buf, Directive.lit c :: fmt, t =>
    match buf with
    | b :: rest => if b = c then strptime rest fmt t else (none, t)
    | [] => (none, t)
  | buf, Directive.conv c :: fmt, t =>
    if c = 'Y' then
      match getNumber 0 9999 4 buf with
      | some (v, rest) => strptime rest fmt { t with tm_year := (v : Int) - 1900 }
      | none => (none, t)
    else if c = 'm' then
      match getNumber 1 12 2 buf with
      | some (v, rest) => strptime rest fmt { t with tm_mon := (v : Int) - 1 }
      | none => (none, t)
    else if c = 'd' then
      match getNumber 1 31 2 buf with
      | some (v, rest) => strptime rest fmt { t with tm_mday := (v : Int) }
      | none => (none, t)
    else if c = 'H' then
      match getNumber 0 23 2 buf with
      | some (v, rest) => strptime rest fmt { t with tm_hour := (v : Int) }
      | none => (none, t)
    else if c = 'M' then
      match getNumber 0 59 2 buf with
      | some (v, rest) => strptime rest fmt { t with tm_min := (v : Int) }
      | none => (none, t)
    else if c = 'S' then
      match getNumber 0 60 2 buf with
      | some (v, rest) => strptime rest fmt { t with tm_sec := (v : Int) }
      | none => (none, t)
    else (none, t)

/-- Gregorian leap-year test used by `timegm`. -/
def isLeap (y : Int) : Bool :=
  y % 4 == 0 && (y % 100 != 0 || y % 400 == 0)

/-- Days of the year that precede month `mon` (0 = January .. 11 = December). -/
def daysBeforeMonth (leap : Bool) (mon : Int) : Int :=
  let l : Int := if leap then 1 else 0
  if mon ≤ 0 then 0
  else if mon = 1 then 31
  else if mon = 2 then 59 + l
  else if mon = 3 then 90 + l
  else if mon = 4 then 120 + l
  else if mon = 5 then 151 + l
  else if mon = 6 then 181 + l
  else if mon = 7 then 212 + l
  else if mon = 8 then 243 + l
  else if mon = 9 then 273 + l
  else if mon = 10 then 304 + l
  else 334 + l

/-- Days from 1970-01-01 to January 1st of year `y`, by the leap-year count of
the POSIX "Seconds Since the Epoch" formula (with flooring division, so that it
extends before 1970). -/
def daysBeforeYear (y : Int) : Int :=
  365 * (y - 1970) + (y - 1969) / 4 - (y - 1901) / 100 + (y - 1601) / 400

/-- The C library `timegm(&t)` with a 64-bit `time_t`: the broken-down UTC time
is normalised (months beyond the year carry into it, days, hours, minutes and
seconds count linearly) and converted to seconds since the Epoch; `-1` when the
result is not representable. -/
def timegm (t : tm) : Int :=
  let year := 1900 + t.tm_year + t.tm_mon / 12
  let mon := t.tm_mon % 12
  let days := daysBeforeYear year + daysBeforeMonth (isLeap year) mon + (t.tm_mday - 1)
  let secs := days * 86400 + t.tm_hour * 3600 + t.tm_min * 60 + t.tm_sec
  if -(2 ^ 63) ≤ secs ∧ secs < 2 ^ 63 then secs else -1

/-- The format string of `ReadExifDate`. -/
def DATE_TIME_FORMAT : List Char := "%Y:%m:%d %H:%M:%S".toList

/-- The function `ReadExifDate(ed)`; the return value of `strptime` is not looked at. -/
def ReadExifDate (ed : ExifData) : Int :=
  match exif_content_get_entry ed ExifIfd.EXIF_IFD_0 EXIF_TAG_DATE_TIME with
  | some entry =>
    let resbuf := trim_spaces (exif_entry_get_value entry 1024)
    if resbuf ≠ [] then
      let t := tm.zero
      let r := strptime resbuf (parseFormat DATE_TIME_FORMAT) t
      let ctime := timegm r.2
      ctime
    else 0
  | none => 0

/-- A directory entry as `readdir` returns it. -/
structure dirent where
  d_type : Nat
  d_name : String
deriving DecidableEq

/-- The value `DT_REG` of `d_type`: a regular file. -/
def DT_REG : Nat := 8

/-- What the operating system and libexif answer to `ReadMediaDirectory`:
`opendir`/`readdir` give the entries of a directory in enumeration order (or
fail), `exif_data_new_from_file` gives the metadata container of a path (or
NULL), `stat` gives `st_size` (or fails). -/
structure FileSystem where
  opendir : String → Option (List dirent)
  exif_data_new_from_file : String → Option ExifData
  stat : String → Option Int

/-- The function `ReadSize(path, ed, size)`: fills the size message. -/
def ReadSize (fs : FileSystem) (path : String) (ed : ExifData) (size : Media_Size) :
    Media_Size :=
  let url := "file://" ++ path
  let size := { size with url := url }
  let size := { size with is_original := true }
  let size := { size with mime_type := "image/jpeg" }
  let size := { size with width := ReadExifInt ed EXIF_TAG_PIXEL_X_DIMENSION }
  let size := { size with height := ReadExifInt ed EXIF_TAG_PIXEL_Y_DIMENSION }
  match fs.stat path with
  | some st_size => { size with file_size := st_size }
  | none => size

/-- The path built for a directory entry: `directory`, then `/`, then the name. -/
def entryPath (directory filename : String) : String :=
  (directory.push '/').append filename

/-- The body of the `readdir` loop of `ReadMediaDirectory` for one entry:
`medias` after the iteration. -/
def ReadMediaDirectory.step (fs : FileSystem) (source : Source) (directory : String)
    (medias : List Media) (dp : dirent) : List Media :=
  if dp.d_type = DT_REG then
    let filename := dp.d_name
    let path := entryPath directory filename
    match fs.exif_data_new_from_file path with
    | none => medias
    | some ed =>
      let media : Media := {}
      let media := { media with handle := ⟨source.type, source.handle, filename⟩ }
      let media := { media with filename := filename }
      let media := { media with original_path := path }
      let media := { media with title := filename }
      let media := { media with captured_at := ReadExifDate ed }
      let size : Media_Size := {}
      let media := { media with sizes := media.sizes ++ [ReadSize fs path ed size] }
      medias ++ [media]
  else medias

/-- The `readdir` loop of `ReadMediaDirectory` over the remaining entries. -/
def ReadMediaDirectory.loop (fs : FileSystem) (source : Source) (directory : String) :
    List dirent → List Media → List Media
  | [], medias => medias
  | dp :: rest, medias =>
    ReadMediaDirectory.loop fs source directory rest
      (ReadMediaDirectory.step fs source directory medias dp)

/-- The function `ReadMediaDirectory(source, directory)`. -/
def ReadMediaDirectory (fs : FileSystem) (source : Source) (directory : String) :
    List Media :=
  match fs.opendir directory with
  | none => []
  | some entries => ReadMediaDirectory.loop fs source directory entries []

/-! ## `main.cpp`: the local-only classifier -/

/-- The `for` loop of `IsLocalOnlyMedia` over `media.sizes()`: `return false` at the
first size that is not local. -/
def IsLocalOnlyMedia.loop (IsLocalSize : Media_Size → Bool) : List Media_Size → Bool
  | [] => true
  | size :: rest => if !IsLocalSize size then false else IsLocalOnlyMedia.loop IsLocalSize rest

/-- The function `IsLocalOnlyMedia(media)`: `false` at the first size that
`IsLocalSize` rejects, `true` when the loop runs out. `IsLocalSize` comes from the
catalogue library (`media_util.h`) and is a parameter. -/
def IsLocalOnlyMedia (IsLocalSize : Media_Size → Bool) (media : Media) : Bool :=
  IsLocalOnlyMedia.loop IsLocalSize media.sizes

/-- What the iterator of `NewMediaByStateIterator(kLocal)` yields from its
current position on: for each record, the result of `Get(&media)`, a status
message when the read fails. `Valid` is "the list is not empty", `Next` drops
the head. -/
abbrev MediaIterator := List (Except String Media)

/-- The `while (media_iter->Valid())` loop of `LocalHandles`. -/
def LocalHandles.loop (IsLocalSize : Media_Size → Bool) :
    MediaIterator → List Handle → List Handle
  | [], local_handles => local_handles
  | Except.ok media :: rest, local_handles =>
    if IsLocalOnlyMedia IsLocalSize media then
      LocalHandles.loop IsLocalSize rest (local_handles ++ [media.handle])
    else
      LocalHandles.loop IsLocalSize rest local_handles
  | Except.error _ :: rest, local_handles =>
    LocalHandles.loop IsLocalSize rest local_handles

/-- The function `LocalHandles(model)`, over the records the model's local-state
iterator yields. -/
def LocalHandles (IsLocalSize : Media_Size → Bool) (media_iter : MediaIterator) :
    List Handle :=
  LocalHandles.loop IsLocalSize media_iter []

/-! ## `main.cpp`: the wait on a condition variable

Every blocking function of `main.cpp` has the same shape: a callback that locks
`mutex` and calls `cond.notify_all()`, an asynchronous request that will run the
callback on a thread of the subsystem, and then, on the calling thread,
`std::unique_lock lck(mutex); cond.wait(lck);`. The two threads are modelled as
a transition system; a schedule is the order in which they take their steps. -/

/-- The two threads of a blocking call. -/
inductive Thread where
  | caller
  | callback
deriving DecidableEq

/-- A scheduling event: a thread takes its next step, or the condition variable
wakes its waiter spuriously (which `cond.wait(lck)` is allowed to do). -/
inductive Event where
  | run (t : Thread)
  | spurious
deriving DecidableEq

/-- Program counter of the calling thread, after it has issued the request. -/
inductive CallerPc where
  | start
  | locked
  | waiting
  | woken
  | returned
deriving DecidableEq

/-- Program counter of the thread that runs the completion callback. -/
inductive CallbackPc where
  | pending
  | invoked
  | locked
  | notified
  | done
deriving DecidableEq

/-- State of a blocking call: both program counters, the owner of `mutex`, and
the local variable of the caller that the callback captures by reference. -/
structure Wait (σ : Type) where
  caller : CallerPc
  callback : CallbackPc
  mutex : Option Thread
  data : σ
deriving DecidableEq

/-- State right after the asynchronous request has been issued. -/
def Wait.init {σ : Type} (data : σ) : Wait σ :=
  ⟨CallerPc.start, CallbackPc.pending, none, data⟩

/-- One step of the calling thread: `std::unique_lock lck(mutex)`, then
`cond.wait(lck)` (release the mutex and block), and once woken re-acquire the
mutex and return. A step that cannot be taken leaves the state unchanged. -/
def Wait.stepCaller {σ : Type} (st : Wait σ) : Wait σ :=
  match st.caller with
  | CallerPc.start =>
    if st.mutex = none then { st with caller := CallerPc.locked, mutex := some Thread.caller }
    else st
  | CallerPc.locked => { st with caller := CallerPc.waiting, mutex := none }
  | CallerPc.waiting => st
  | CallerPc.woken =>
    if st.mutex = none then { st with caller := CallerPc.returned } else st
  | CallerPc.returned => st

/-- One step of the callback thread: the statements of the lambda that precede
the lock (`effect`), then `std::unique_lock lck(mutex)`, `cond.notify_all()`
(which wakes the caller only if it is waiting), and the unlock at scope exit. -/
def Wait.stepCallback {σ : Type} (effect : σ → σ) (st : Wait σ) : Wait σ :=
  match st.callback with
  | CallbackPc.pending => { st with callback := CallbackPc.invoked, data := effect st.data }
  | CallbackPc.invoked =>
    if st.mutex = none then { st with callback := CallbackPc.locked, mutex := some Thread.callback }
    else st
  | CallbackPc.locked =>
    { st with
      callback := CallbackPc.notified
      caller := if st.caller = CallerPc.waiting then CallerPc.woken else st.caller }
  | CallbackPc.notified => { st with callback := CallbackPc.done, mutex := none }
  | CallbackPc.done => st

/-- One scheduling event. -/
def Wait.step {σ : Type} (effect : σ → σ) (st : Wait σ) : Event → Wait σ
  | Event.run Thread.caller => st.stepCaller
  | Event.run Thread.callback => st.stepCallback effect
  | Event.spurious =>
    if st.caller = CallerPc.waiting then { st with caller := CallerPc.woken } else st

/-- Runs a schedule. -/
def Wait.run {σ : Type} (effect : σ → σ) (st : Wait σ) (schedule : List Event) : Wait σ :=
  schedule.foldl (Wait.step effect) st

/-- The status `leveldb::Status`: code 0 is OK. -/
structure Status where
  code : Nat
  msg : String
deriving DecidableEq

/-- The method `leveldb::Status::ok()`. -/
def Status.ok (s : Status) : Bool := s.code == 0

/-- The struct `rfm::SyncStats`, with the fields `MySyncListener` reads. -/
structure SyncStats where
  config_changed : Bool
  user_changed : Bool
  sources_changed : Bool
  medias_changed : Int
  medias_inserted : Int
  medias_removed : Int
deriving DecidableEq

/-- The wait of `OpenModel(model, path, local_source)`: the callback ignores its
status and only notifies. The result is the state of the call after `schedule`. -/
def OpenModel.wait (_s : Status) (schedule : List Event) : Wait Unit :=
  Wait.run id (Wait.init ()) schedule

/-- The function `OpenModel`: returns (nothing) once the caller has left `cond.wait`;
`none` while it has not. -/
def OpenModel (s : Status) (schedule : List Event) : Option Unit :=
  if (OpenModel.wait s schedule).caller = CallerPc.returned then some () else none

/-- The statements of the callback of `Sync` before it locks:
`if (status.ok()) stats = s;`. -/
def Sync.cb (s : SyncStats) (status : Status) (stats : SyncStats) : SyncStats :=
  if status.ok then s else stats

/-- The state in which the caller leaves `cond.wait` and returns: the first state
of the run of `schedule` from `st` whose caller has returned; `none` when the
caller does not return within the schedule. What the other thread does
afterwards plays no part. -/
def Wait.returnState {σ : Type} (effect : σ → σ) : Wait σ → List Event → Option (Wait σ)
  | st, [] => if st.caller = CallerPc.returned then some st else none
  | st, e :: rest =>
    if st.caller = CallerPc.returned then some st
    else Wait.returnState effect (st.step effect e) rest

/-- The state in which `Sync(model)` returns: `stats` starts as `init` (the value of
the declaration `rfm::SyncStats stats;`) and the subsystem delivers `s` and
`status` to the callback. -/
def Sync.returnState (init s : SyncStats) (status : Status) (schedule : List Event) :
    Option (Wait SyncStats) :=
  Wait.returnState (Sync.cb s status) (Wait.init init) schedule

/-- The function `Sync(model)`: `return stats;` with the value `stats` has when the
caller leaves `cond.wait`; `none` while it has not. -/
def Sync (init s : SyncStats) (status : Status) (schedule : List Event) :
    Option SyncStats :=
  match Sync.returnState init s status schedule with
  | some st => some st.data
  | none => none

/-! ## `main.cpp`: the upload session -/

/-- The struct `rfm::uploader::Session`: both counters are C `int`s (they are logged
with `%d`). -/
structure Session where
  completed : Int
  total : Int
deriving DecidableEq

/-- The uploader of the model, as far as `UploadMedias` drives it: how many
listeners were ever registered, the tokens of the listeners registered now, and
the batches submitted with `Add`. -/
structure Uploader where
  registrations : Nat
  listeners : List Nat
  batches : List (List Handle)
deriving DecidableEq

/-- The method `uploader->AddSessionListener(listener)`: registers and returns the token. -/
def Uploader.AddSessionListener (u : Uploader) : Nat × Uploader :=
  (u.registrations,
    { u with registrations := u.registrations + 1, listeners := u.registrations :: u.listeners })

/-- The method `uploader->Add(handles)`: submits a batch. -/
def Uploader.Add (u : Uploader) (handles : List Handle) : Uploader :=
  { u with batches := u.batches ++ [handles] }

/-- The method `uploader->RemoveSessionListener(token)`. -/
def Uploader.RemoveSessionListener (u : Uploader) (token : Nat) : Uploader :=
  { u with listeners := u.listeners.erase token }

/-- The session listener of `UploadMedias`: whether this snapshot makes it call
`cond.notify_all()`, that is `session.completed == local_handles.size()`, the
`int` being converted to the 64-bit unsigned `size_t` for the comparison. -/
def UploadMedias.listener (local_handles : List Handle) (session : Session) : Bool :=
  session.completed % 2 ^ 64 == (local_handles.length : Int)

/-- What the two threads of `UploadMedias` share besides the mutex: the snapshots
the uploader has still to deliver, the snapshot of the listener invocation in
progress, and the snapshot whose `notify_all` woke the caller. -/
structure UploadData where
  sessions : List Session
  current : Option Session
  releasedBy : Option Session
deriving DecidableEq

/-- One step of the uploader thread. Between two invocations (`pending`) it
delivers the next snapshot to the listener: when `completed` equals the batch
size the listener goes on to lock the mutex, otherwise it returns at once. Then
`std::unique_lock lck(mutex)`, `cond.notify_all()` (which wakes the caller only
if it is waiting) and the unlock at scope exit, after which the next snapshot
can be delivered. -/
def UploadMedias.stepListener (local_handles : List Handle) (st : Wait UploadData) :
    Wait UploadData :=
  match st.callback with
  | CallbackPc.pending =>
    match st.data.sessions with
    | [] => st
    | session :: rest =>
      if UploadMedias.listener local_handles session then
        { st with
          callback := CallbackPc.invoked
          data := { st.data with sessions := rest, current := some session } }
      else { st with data := { st.data with sessions := rest } }
  | CallbackPc.invoked =>
    if st.mutex = none then { st with callback := CallbackPc.locked, mutex := some Thread.callback }
    else st
  | CallbackPc.locked =>
    if st.caller = CallerPc.waiting then
      { st with
        callback := CallbackPc.notified
        caller := CallerPc.woken
        data := { st.data with releasedBy := st.data.current } }
    else { st with callback := CallbackPc.notified }
  | CallbackPc.notified =>
    { st with
      callback := CallbackPc.pending
      mutex := none
      data := { st.data with current := none } }
  | CallbackPc.done => st

/-- One scheduling event of `UploadMedias`: the caller steps as in every blocking
call, the uploader thread runs the listener, or the waiter wakes spuriously. -/
def UploadMedias.step (local_handles : List Handle) (st : Wait UploadData) :
    Event → Wait UploadData
  | Event.run Thread.caller => st.stepCaller
  | Event.run Thread.callback => UploadMedias.stepListener local_handles st
  | Event.spurious =>
    if st.caller = CallerPc.waiting then { st with caller := CallerPc.woken } else st

/-- The wait of `UploadMedias`, from the return of `uploader->Add(local_handles)` on:
the state of the call after `schedule`, `sessions` being the snapshots the
uploader delivers. -/
def UploadMedias.wait (local_handles : List Handle) (sessions : List Session)
    (schedule : List Event) : Wait UploadData :=
  schedule.foldl (UploadMedias.step local_handles) (Wait.init ⟨sessions, none, none⟩)

/-- The function `UploadMedias(model)`: the uploader after the call, for the records
the local-state iterator yields, the snapshots the uploader delivers and the
schedule of the two threads; `none` while the caller has not left `cond.wait`
(a caller that has returned stays returned, and the result does not depend on
the shared data). -/
def UploadMedias (IsLocalSize : Media_Size → Bool) (media_iter : MediaIterator)
    (uploader : Uploader) (sessions : List Session) (schedule : List Event) :
    Option Uploader :=
  let local_handles := LocalHandles IsLocalSize media_iter
  if local_handles.isEmpty then some uploader
  else
    let r := uploader.AddSessionListener
    let token := r.1
    let uploader := r.2
    let uploader := uploader.Add local_handles
    if (UploadMedias.wait local_handles sessions schedule).caller = CallerPc.returned then
      some (uploader.RemoveSessionListener token)
    else none

/-! ## Reference definitions for the statements -/

/-- An entry is absent, or its value text is empty or made of spaces only. -/
def absentOrBlank : Option ExifEntry → Bool
  | none => true
  | some entry => entry.text.all (fun c => c == ' ')

/-- An `ExifData` whose only entry is a `DateTime` entry with the given text. -/
def dateTimeOnly (text : String) : ExifData :=
  ⟨fun i tag =>
    if i = ExifIfd.EXIF_IFD_0 ∧ tag = EXIF_TAG_DATE_TIME then some ⟨text.toList⟩ else none⟩

/-- The record the claims describe for a file `filename` of `directory` whose
metadata container is `ed`, written field by field. -/
def describedMedia (fs : FileSystem) (source : Source) (directory filename : String)
    (ed : ExifData) : Media :=
  { handle := ⟨source.type, source.handle, filename⟩
    filename := filename
    original_path := directory ++ "/" ++ filename
    title := filename
    captured_at := ReadExifDate ed
    sizes :=
      [{ url := "file://" ++ (directory ++ "/" ++ filename)
         is_original := true
         mime_type := "image/jpeg"
         width := ReadExifInt ed EXIF_TAG_PIXEL_X_DIMENSION
         height := ReadExifInt ed EXIF_TAG_PIXEL_Y_DIMENSION
         file_size := (fs.stat (directory ++ "/" ++ filename)).getD 0 }] }

/-- A directory entry is a regular file that carries a metadata container. -/
def carriesContainer (fs : FileSystem) (directory : String) (dp : dirent) : Bool :=
  dp.d_type == DT_REG && (fs.exif_data_new_from_file (directory ++ "/" ++ dp.d_name)).isSome

/-- The handle a catalogue record contributes to the upload candidates: its own
handle when the read succeeded and every size is local, nothing otherwise. -/
def localOnlyHandle (IsLocalSize : Media_Size → Bool) : Except String Media → Option Handle
  | Except.ok media => if media.sizes.all IsLocalSize then some media.handle else none
  | Except.error _ => none

/-! ## Sample inputs -/

/-- The local source of `CreateLocalSource`. -/
def CreateLocalSource : Source :=
  ⟨"android", "123456", "Android", "Nexus 7", "tablet"⟩

/-- Metadata of a 100 by 100 JPEG taken on 2015-06-11 at 10:00:00. -/
def sampleExif : ExifData :=
  ⟨fun i tag =>
    if i = ExifIfd.EXIF_IFD_EXIF ∧ (tag = EXIF_TAG_PIXEL_X_DIMENSION ∨ tag = EXIF_TAG_PIXEL_Y_DIMENSION)
    then some ⟨"100".toList⟩
    else if i = ExifIfd.EXIF_IFD_0 ∧ tag = EXIF_TAG_DATE_TIME
    then some ⟨"2015:06:11 10:00:00".toList⟩
    else none⟩

/-- The entries of the sample directory: a JPEG, a text file and a subdirectory. -/
def sampleEntries : List dirent :=
  [⟨DT_REG, "a.jpg"⟩, ⟨DT_REG, "notes.txt"⟩, ⟨4, "sub"⟩]

/-- A file system with one directory `photos` holding `sampleEntries`. -/
def sampleFs : FileSystem where
  opendir := fun d => if d = "photos" then some sampleEntries else none
  exif_data_new_from_file := fun p => if p = "photos/a.jpg" then some sampleExif else none
  stat := fun _ => some 2048

/-- Metadata with a well-formed date and no pixel dimensions. -/
def dateOnlyExif : ExifData := dateTimeOnly "2015:06:11 10:00:00"

/-- Metadata whose pixel dimensions and date are present but blank. -/
def blankExif : ExifData :=
  ⟨fun i tag =>
    if i = ExifIfd.EXIF_IFD_EXIF ∧ tag = EXIF_TAG_PIXEL_X_DIMENSION then some ⟨"   ".toList⟩
    else if i = ExifIfd.EXIF_IFD_0 ∧ tag = EXIF_TAG_DATE_TIME then some ⟨[]⟩
    else none⟩

/-- A sample locality test: a size is local when its url starts with `file://`. -/
def sampleIsLocalSize (size : Media_Size) : Bool :=
  "file://".toList.isPrefixOf size.url.toList

/-- A media with the given item handle and size urls. -/
def sampleMedia (handle : String) (urls : List String) : Media :=
  { handle := ⟨"android", "123456", handle⟩
    sizes := urls.map (fun u => { url := u }) }

/-- Catalogue records: a local-only media, a media with a local and a remote
size, a record that fails to read, and two more local-only media. -/
def sampleRecords : MediaIterator :=
  [Except.ok (sampleMedia "a.jpg" ["file://photos/a.jpg"]),
   Except.ok (sampleMedia "b.jpg" ["file://photos/b.jpg", "https://remote/b.jpg"]),
   Except.error "Corruption: bad record",
   Except.ok (sampleMedia "c.jpg" ["file://photos/c.jpg"]),
   Except.ok (sampleMedia "d.jpg" ["file://photos/d.jpg"])]

/-- The schedule in which the callback runs to its end before the caller reaches
`cond.wait`: the subsystem completes the request at once. -/
def scheduleCallbackFirst : List Event :=
  [Event.run Thread.callback, Event.run Thread.callback, Event.run Thread.callback,
   Event.run Thread.callback, Event.run Thread.caller, Event.run Thread.caller]

/-- The schedule in which the waiting caller is woken spuriously while the
callback has not run yet. -/
def scheduleSpurious : List Event :=
  [Event.run Thread.caller, Event.run Thread.caller, Event.spurious, Event.run Thread.caller]

/-- The schedule of an upload of three in which the caller waits first: the
listener then receives the three snapshots (the third one locks, notifies and
unlocks) and the caller returns. -/
def uploadInOrder : List Event :=
  [Event.run Thread.caller, Event.run Thread.caller,
   Event.run Thread.callback, Event.run Thread.callback, Event.run Thread.callback,
   Event.run Thread.callback, Event.run Thread.callback, Event.run Thread.callback,
   Event.run Thread.caller]

/-- The schedule of an upload of three in which the uploader delivers the three
snapshots before the caller reaches `cond.wait`. -/
def uploadSnapshotsFirst : List Event :=
  [Event.run Thread.callback, Event.run Thread.callback, Event.run Thread.callback,
   Event.run Thread.callback, Event.run Thread.callback, Event.run Thread.callback,
   Event.run Thread.caller, Event.run Thread.caller]

/-- The schedule of an upload in which the caller waits, the listener receives
the first snapshot, and the caller is woken spuriously and returns. -/
def uploadSpurious : List Event :=
  [Event.run Thread.caller, Event.run Thread.caller, Event.run Thread.callback,
   Event.spurious, Event.run Thread.caller]

/-- Progress snapshots of a batch of three: one, two, three completed. -/
def sampleSessions : List Session := [⟨1, 3⟩, ⟨2, 3⟩, ⟨3, 3⟩]

/-- An uploader on which nothing was registered or submitted yet. -/
def freshUploader : Uploader := ⟨0, [], []⟩

/-! ## Lemmas on the readers -/

theorem trim_spaces_end_blank (buf : List Char) (h : ∀ c ∈ buf, c = ' ') (i keep : Nat) :
    trim_spaces_end buf i keep = keep := by
  induction buf generalizing i keep with
  | nil => rfl
  | cons c rest ih =>
    have hc : c = ' ' := h c (List.mem_cons_self _ _)
    have hrest : ∀ x ∈ rest, x = ' ' := fun x hx => h x (List.mem_cons_of_mem _ hx)
    subst hc
    simp [trim_spaces_end, ih hrest]

theorem trim_spaces_blank (buf : List Char) (h : ∀ c ∈ buf, c = ' ') :
    trim_spaces buf = [] := by
  simp [trim_spaces, trim_spaces_end_blank buf h]

theorem exif_entry_get_value_blank (entry : ExifEntry) (maxlen : Nat)
    (h : ∀ c ∈ entry.text, c = ' ') :
    ∀ c ∈ exif_entry_get_value entry maxlen, c = ' ' := by
  intro c hc
  unfold exif_entry_get_value at hc
  exact h c (List.takeWhile_subset _ (List.take_subset _ _ hc))

theorem trimmed_value_blank (o : Option ExifEntry) (h : absentOrBlank o = true) :
    ∀ entry, o = some entry → trim_spaces (exif_entry_get_value entry 1024) = [] := by
  intro entry ho
  subst ho
  apply trim_spaces_blank
  apply exif_entry_get_value_blank
  intro c hc
  simpa using (List.all_eq_true.mp h) c hc

/-! ## Lemmas on the directory scan -/

theorem entryPath_eq (directory filename : String) :
    entryPath directory filename = directory ++ "/" ++ filename := by
  apply String.ext
  simp [entryPath, String.push, String.append]

theorem ReadSize_eq (fs : FileSystem) (source : Source) (directory filename : String)
    (ed : ExifData) :
    [ReadSize fs (entryPath directory filename) ed {}] =
      (describedMedia fs source directory filename ed).sizes := by
  rw [entryPath_eq]
  unfold ReadSize describedMedia
  cases fs.stat (directory ++ "/" ++ filename) <;> rfl

theorem step_eq (fs : FileSystem) (source : Source) (directory : String)
    (medias : List Media) (dp : dirent) :
    ReadMediaDirectory.step fs source directory medias dp =
      medias ++
        (if dp.d_type = DT_REG then
          match fs.exif_data_new_from_file (directory ++ "/" ++ dp.d_name) with
          | some ed => [describedMedia fs source directory dp.d_name ed]
          | none => []
        else []) := by
  unfold ReadMediaDirectory.step
  by_cases hreg : dp.d_type = DT_REG
  · simp only [hreg, if_true]
    rw [entryPath_eq]
    cases hed : fs.exif_data_new_from_file (directory ++ "/" ++ dp.d_name) with
    | none => simp
    | some ed =>
      simp only [List.nil_append]
      congr 2
      have := ReadSize_eq fs source directory dp.d_name ed
      rw [entryPath_eq] at this
      simp only [describedMedia] at this ⊢
      rw [this]
  · simp [hreg]

theorem loop_eq_append (fs : FileSystem) (source : Source) (directory : String)
    (entries : List dirent) (medias : List Media) :
    ReadMediaDirectory.loop fs source directory entries medias =
      medias ++ entries.flatMap (ReadMediaDirectory.step fs source directory []) := by
  induction entries generalizing medias with
  | nil => simp [ReadMediaDirectory.loop]
  | cons dp rest ih =>
    rw [ReadMediaDirectory.loop, ih, step_eq fs source directory medias]
    rw [List.flatMap_cons, step_eq fs source directory []]
    simp [List.append_assoc]


theorem ReadMediaDirectory_eq (fs : FileSystem) (source : Source) (directory : String)
    (entries : List dirent) (hdir : fs.opendir directory = some entries) :
    ReadMediaDirectory fs source directory =
      entries.flatMap (ReadMediaDirectory.step fs source directory []) := by
  simp [ReadMediaDirectory, hdir, loop_eq_append]

theorem step_length (fs : FileSystem) (source : Source) (directory : String) (dp : dirent) :
    (ReadMediaDirectory.step fs source directory [] dp).length =
      if carriesContainer fs directory dp then 1 else 0 := by
  rw [step_eq]
  unfold carriesContainer
  by_cases hreg : dp.d_type = DT_REG
  · cases hed : fs.exif_data_new_from_file (directory ++ "/" ++ dp.d_name) <;> simp [hreg, hed]
  · simp [hreg]

theorem mem_step (fs : FileSystem) (source : Source) (directory : String) (dp : dirent)
    (media : Media) (h : media ∈ ReadMediaDirectory.step fs source directory [] dp) :
    dp.d_type = DT_REG ∧ ∃ ed,
      fs.exif_data_new_from_file (directory ++ "/" ++ dp.d_name) = some ed ∧
      media = describedMedia fs source directory dp.d_name ed := by
  rw [step_eq] at h
  by_cases hreg : dp.d_type = DT_REG
  · refine ⟨hreg, ?_⟩
    cases hed : fs.exif_data_new_from_file (directory ++ "/" ++ dp.d_name) with
    | none => simp [hreg, hed] at h
    | some ed =>
      simp [hreg, hed] at h
      exact ⟨ed, rfl, h⟩
  · simp [hreg] at h

theorem flatMap_step_length (fs : FileSystem) (source : Source) (directory : String)
    (entries : List dirent) :
    (entries.flatMap (ReadMediaDirectory.step fs source directory [])).length =
      entries.countP (carriesContainer fs directory) := by
  induction entries with
  | nil => rfl
  | cons dp rest ih =>
    rw [List.flatMap_cons, List.length_append, ih, step_length, List.countP_cons]
    omega

/-! ## The claims on `media-reader.cpp` -/

/-- C2. When the directory opens, `ReadMediaDirectory` returns as many media as
the listing has regular files for which `exif_data_new_from_file` yields a
container, and none of them belongs to an entry for which it yields nothing. -/
theorem ReadMediaDirectory_counts_containers (fs : FileSystem) (source : Source)
    (directory : String) (entries : List dirent)
    (hdir : fs.opendir directory = some entries) :
    (ReadMediaDirectory fs source directory).length
        = entries.countP (carriesContainer fs directory) ∧
      ∀ dp ∈ entries, fs.exif_data_new_from_file (directory ++ "/" ++ dp.d_name) = none →
        ∀ media ∈ ReadMediaDirectory fs source directory,
          media.original_path ≠ directory ++ "/" ++ dp.d_name := by
  rw [ReadMediaDirectory_eq fs source directory entries hdir]
  refine ⟨flatMap_step_length fs source directory entries, ?_⟩
  intro dp _ hnone media hmem hpath
  obtain ⟨dp', _, hstep⟩ := List.mem_flatMap.mp hmem
  obtain ⟨_, ed, hed, hmedia⟩ := mem_step fs source directory dp' media hstep
  subst hmedia
  simp only [describedMedia] at hpath
  rw [hpath, hnone] at hed
  cases hed

/-- Witness of C2: the sample directory, a JPEG next to a text file and a
subdirectory, yields exactly one media, the one of the JPEG. -/
theorem ReadMediaDirectory_counts_containers_witness :
    (ReadMediaDirectory sampleFs CreateLocalSource "photos").length = 1 ∧
      sampleEntries.countP (carriesContainer sampleFs "photos") = 1 ∧
      (ReadMediaDirectory sampleFs CreateLocalSource "photos").map (fun m => m.filename)
        = ["a.jpg"] := by
  have h := ReadMediaDirectory_counts_containers sampleFs CreateLocalSource "photos"
    sampleEntries (by decide)
  have hc : sampleEntries.countP (carriesContainer sampleFs "photos") = 1 := by decide
  exact ⟨h.1.trans hc, hc, by decide⟩

/-- C3. Every media `ReadMediaDirectory(source, directory)` returns comes from a
regular file `f` of the directory with a metadata container `ed`, and has handle
`(source.type, source.handle, f)`, filename and title `f`, original path
`directory/f`, capture time `ReadExifDate(ed)`, and exactly one size: original,
with url `file://` followed by the original path, mime type `image/jpeg`, and
width and height read from the pixel dimension tags of `ed`. -/
theorem ReadMediaDirectory_media_fields (fs : FileSystem) (source : Source)
    (directory : String) (media : Media)
    (hmem : media ∈ ReadMediaDirectory fs source directory) :
    ∃ entries dp ed, fs.opendir directory = some entries ∧ dp ∈ entries ∧
      dp.d_type = DT_REG ∧
      fs.exif_data_new_from_file (directory ++ "/" ++ dp.d_name) = some ed ∧
      media.handle = ⟨source.type, source.handle, dp.d_name⟩ ∧
      media.filename = dp.d_name ∧ media.title = dp.d_name ∧
      media.original_path = directory ++ "/" ++ dp.d_name ∧
      media.captured_at = ReadExifDate ed ∧
      ∃ size, media.sizes = [size] ∧ size.is_original = true ∧
        size.url = "file://" ++ media.original_path ∧
        size.mime_type = "image/jpeg" ∧
        size.width = ReadExifInt ed EXIF_TAG_PIXEL_X_DIMENSION ∧
        size.height = ReadExifInt ed EXIF_TAG_PIXEL_Y_DIMENSION := by
  cases hdir : fs.opendir directory with
  | none => simp [ReadMediaDirectory, hdir] at hmem
  | some entries =>
    rw [ReadMediaDirectory_eq fs source directory entries hdir] at hmem
    obtain ⟨dp, hdp, hstep⟩ := List.mem_flatMap.mp hmem
    obtain ⟨hreg, ed, hed, hmedia⟩ := mem_step fs source directory dp media hstep
    subst hmedia
    exact ⟨entries, dp, ed, rfl, hdp, hreg, hed, rfl, rfl, rfl, rfl, rfl, _, rfl, rfl, rfl,
      rfl, rfl, rfl⟩

/-- Witness of C3: the media of `a.jpg` in the sample directory, 100 by 100
pixels, taken at 1434016800. -/
theorem ReadMediaDirectory_media_fields_witness :
    ∃ media, media ∈ ReadMediaDirectory sampleFs CreateLocalSource "photos" ∧
      media.handle = ⟨"android", "123456", "a.jpg"⟩ ∧
      media.original_path = "photos/a.jpg" ∧
      media.captured_at = 1434016800 ∧
      ∃ size, media.sizes = [size] ∧ size.url = "file://photos/a.jpg" ∧
        size.width = 100 ∧ size.height = 100 := by
  have hmem : describedMedia sampleFs CreateLocalSource "photos" "a.jpg" sampleExif
      ∈ ReadMediaDirectory sampleFs CreateLocalSource "photos" := by decide
  obtain ⟨_, dp, ed, _, _, _, _, _, _, _, _, _, size, hs, _⟩ :=
    ReadMediaDirectory_media_fields sampleFs CreateLocalSource "photos" _ hmem
  exact ⟨_, hmem, by decide, by decide, by decide, _, rfl, by decide, by decide, by decide⟩

/-- C6. Field by field: when the entry `ReadExifInt` looks up is absent, or its
value text is empty or made of spaces only, `ReadExifInt` returns 0; and when
the `DateTime` entry is absent, or its text is empty or made of spaces only,
`ReadExifDate` returns 0. Either holds whatever the other fields contain. -/
theorem absent_or_blank_reads_zero (ed : ExifData) (tag : ExifTag) :
    (absentOrBlank (exif_content_get_entry ed ExifIfd.EXIF_IFD_EXIF tag) = true →
      ReadExifInt ed tag = 0) ∧
    (absentOrBlank (exif_content_get_entry ed ExifIfd.EXIF_IFD_0 EXIF_TAG_DATE_TIME) = true →
      ReadExifDate ed = 0) := by
  constructor
  · intro hint
    unfold ReadExifInt
    cases h : exif_content_get_entry ed ExifIfd.EXIF_IFD_EXIF tag with
    | none => rfl
    | some entry => simp [trimmed_value_blank _ hint entry h]
  · intro hdate
    unfold ReadExifDate
    cases h : exif_content_get_entry ed ExifIfd.EXIF_IFD_0 EXIF_TAG_DATE_TIME with
    | none => rfl
    | some entry => simp [trimmed_value_blank _ hdate entry h]

/-- Witness of C6: a width of three spaces, an absent height and an empty date
all read as 0; and next to a well-formed date, which reads as 1434016800, an
absent width still reads as 0. -/
theorem absent_or_blank_reads_zero_witness :
    ReadExifInt blankExif EXIF_TAG_PIXEL_X_DIMENSION = 0 ∧
      ReadExifInt blankExif EXIF_TAG_PIXEL_Y_DIMENSION = 0 ∧
      ReadExifDate blankExif = 0 ∧
      ReadExifInt dateOnlyExif EXIF_TAG_PIXEL_X_DIMENSION = 0 ∧
      ReadExifDate dateOnlyExif = 1434016800 :=
  ⟨(absent_or_blank_reads_zero blankExif EXIF_TAG_PIXEL_X_DIMENSION).1 (by decide),
    (absent_or_blank_reads_zero blankExif EXIF_TAG_PIXEL_Y_DIMENSION).1 (by decide),
    (absent_or_blank_reads_zero blankExif EXIF_TAG_PIXEL_X_DIMENSION).2 (by decide),
    (absent_or_blank_reads_zero dateOnlyExif EXIF_TAG_PIXEL_X_DIMENSION).1 (by decide),
    by decide⟩

/-! ## The local-only classifier -/

theorem IsLocalOnlyMedia_loop_eq_all (IsLocalSize : Media_Size → Bool) (sizes : List Media_Size) :
    IsLocalOnlyMedia.loop IsLocalSize sizes = sizes.all IsLocalSize := by
  induction sizes with
  | nil => rfl
  | cons size rest ih =>
    cases h : IsLocalSize size <;> simp [IsLocalOnlyMedia.loop, h, ih]

theorem LocalHandles_loop_eq (IsLocalSize : Media_Size → Bool) (media_iter : MediaIterator)
    (local_handles : List Handle) :
    LocalHandles.loop IsLocalSize media_iter local_handles =
      local_handles ++ media_iter.filterMap (localOnlyHandle IsLocalSize) := by
  induction media_iter generalizing local_handles with
  | nil => simp [LocalHandles.loop]
  | cons r rest ih =>
    cases r with
    | error e => simp [LocalHandles.loop, ih, localOnlyHandle]
    | ok media =>
      unfold LocalHandles.loop
      by_cases h : IsLocalOnlyMedia IsLocalSize media = true
      · have h' : media.sizes.all IsLocalSize = true := by
          rw [← IsLocalOnlyMedia_loop_eq_all]; exact h
        rw [if_pos h, ih, List.filterMap_cons]
        simp [localOnlyHandle, h']
      · have h' : media.sizes.all IsLocalSize = false := by
          rw [← IsLocalOnlyMedia_loop_eq_all]; simpa [IsLocalOnlyMedia] using h
        rw [if_neg h, ih, List.filterMap_cons]
        simp [localOnlyHandle, h']

theorem LocalHandles_eq_filterMap (IsLocalSize : Media_Size → Bool) (media_iter : MediaIterator) :
    LocalHandles IsLocalSize media_iter = media_iter.filterMap (localOnlyHandle IsLocalSize) := by
  simp [LocalHandles, LocalHandles_loop_eq]

/-- C1. `IsLocalOnlyMedia` holds exactly when `IsLocalSize` holds for every size;
`LocalHandles` returns, in iterator order, the handles of the records that read
successfully and are local-only; a record that fails to read is skipped and the
scan goes on; a media with one local and one remote size is left out. -/
theorem LocalHandles_spec (IsLocalSize : Media_Size → Bool) :
    (∀ media, IsLocalOnlyMedia IsLocalSize media = true ↔
      ∀ size ∈ media.sizes, IsLocalSize size = true) ∧
    (∀ media_iter, LocalHandles IsLocalSize media_iter =
      media_iter.filterMap (localOnlyHandle IsLocalSize)) ∧
    (∀ pre post e, LocalHandles IsLocalSize (pre ++ Except.error e :: post) =
      LocalHandles IsLocalSize pre ++ LocalHandles IsLocalSize post) ∧
    (∀ pre post media a b, media.sizes = [a, b] → IsLocalSize a = true →
      IsLocalSize b = false →
      LocalHandles IsLocalSize (pre ++ Except.ok media :: post) =
        LocalHandles IsLocalSize pre ++ LocalHandles IsLocalSize post) := by
  refine ⟨?_, LocalHandles_eq_filterMap IsLocalSize, ?_, ?_⟩
  · intro media
    unfold IsLocalOnlyMedia
    rw [IsLocalOnlyMedia_loop_eq_all, List.all_eq_true]
  · intro pre post e
    simp [LocalHandles_eq_filterMap, localOnlyHandle]
  · intro pre post media a b hs ha hb
    simp [LocalHandles_eq_filterMap, localOnlyHandle, hs, ha, hb]

/-- Witness of C1: of five records, the one with a remote size and the one that
fails to read are left out, the other three handles come out in order. -/
theorem LocalHandles_spec_witness :
    LocalHandles sampleIsLocalSize sampleRecords =
        [⟨"android", "123456", "a.jpg"⟩, ⟨"android", "123456", "c.jpg"⟩,
          ⟨"android", "123456", "d.jpg"⟩] ∧
      LocalHandles sampleIsLocalSize sampleRecords =
        sampleRecords.filterMap (localOnlyHandle sampleIsLocalSize) :=
  ⟨by decide, (LocalHandles_spec sampleIsLocalSize).2.1 sampleRecords⟩

/-! ## The upload session -/

theorem listener_iff (local_handles : List Handle) (session : Session)
    (hsize : local_handles.length < 2 ^ 63)
    (hrange : -(2 ^ 63) ≤ session.completed ∧ session.completed < 2 ^ 64) :
    UploadMedias.listener local_handles session = true ↔
      session.completed = local_handles.length := by
  simp only [UploadMedias.listener, beq_iff_eq]
  have h1 : (local_handles.length : Int) < 2 ^ 63 := by exact_mod_cast hsize
  norm_num at h1 hrange ⊢
  omega

theorem upload_stuck_after_last_snapshot (local_handles : List Handle)
    (st : Wait UploadData) (hc : st.caller = CallerPc.waiting)
    (hcb : st.callback = CallbackPc.pending) (hs : st.data.sessions = [])
    (threads : List Thread) :
    (threads.map Event.run).foldl (UploadMedias.step local_handles) st = st := by
  induction threads with
  | nil => rfl
  | cons t rest ih =>
    have hstep : UploadMedias.step local_handles st (Event.run t) = st := by
      cases t <;>
        simp [UploadMedias.step, Wait.stepCaller, UploadMedias.stepListener, hc, hcb, hs]
    simp only [List.map_cons, List.foldl_cons, hstep]
    exact ih

/-- C8, evaluated on the code, for a batch of three with snapshots 1, 2 and 3
completed. The listener notifies on the last snapshot only, and when the caller
is already waiting that snapshot is the one that releases it. But the wait has
no predicate: when the three snapshots are delivered before the caller reaches
`cond.wait`, the notification of the snapshot with `completed = 3` is lost and
no further step of either thread releases the caller; and a spurious wake-up
lets `UploadMedias` return after the first snapshot only. -/
theorem UploadMedias_wait_at_batch_size :
    (LocalHandles sampleIsLocalSize sampleRecords).length = 3 ∧
    sampleSessions.map (UploadMedias.listener (LocalHandles sampleIsLocalSize sampleRecords))
      = [false, false, true] ∧
    (UploadMedias.wait (LocalHandles sampleIsLocalSize sampleRecords) sampleSessions
      uploadInOrder).data.releasedBy = some ⟨3, 3⟩ ∧
    UploadMedias sampleIsLocalSize sampleRecords freshUploader sampleSessions uploadInOrder
      = some ⟨1, [], [LocalHandles sampleIsLocalSize sampleRecords]⟩ ∧
    (UploadMedias.wait (LocalHandles sampleIsLocalSize sampleRecords) sampleSessions
      uploadSnapshotsFirst).data.sessions = [] ∧
    (∀ threads : List Thread,
      UploadMedias sampleIsLocalSize sampleRecords freshUploader sampleSessions
        (uploadSnapshotsFirst ++ threads.map Event.run) = none) ∧
    (UploadMedias sampleIsLocalSize sampleRecords freshUploader sampleSessions
      uploadSpurious).isSome = true ∧
    (UploadMedias.wait (LocalHandles sampleIsLocalSize sampleRecords) sampleSessions
      uploadSpurious).data.sessions = [⟨2, 3⟩, ⟨3, 3⟩] := by
  refine ⟨by decide, by decide, by decide, by decide, by decide, ?_, by decide, by decide⟩
  intro threads
  have hst := upload_stuck_after_last_snapshot (LocalHandles sampleIsLocalSize sampleRecords)
    (UploadMedias.wait (LocalHandles sampleIsLocalSize sampleRecords) sampleSessions
      uploadSnapshotsFirst) (by decide) (by decide) (by decide) threads
  have hne : (LocalHandles sampleIsLocalSize sampleRecords).isEmpty = false := by decide
  have hwait : UploadMedias.wait (LocalHandles sampleIsLocalSize sampleRecords) sampleSessions
      (uploadSnapshotsFirst ++ threads.map Event.run) =
      UploadMedias.wait (LocalHandles sampleIsLocalSize sampleRecords) sampleSessions
        uploadSnapshotsFirst := by
    unfold UploadMedias.wait at hst ⊢
    rw [List.foldl_append, hst]
  have hcaller : (UploadMedias.wait (LocalHandles sampleIsLocalSize sampleRecords)
      sampleSessions uploadSnapshotsFirst).caller = CallerPc.waiting := by decide
  unfold UploadMedias
  simp only [hne, Bool.false_eq_true, if_false, hwait, hcaller]
  decide

/-- C9. When `LocalHandles` yields no handle, `UploadMedias` returns with the
uploader untouched: no listener registered, no batch submitted, whatever the
uploader would have delivered and however the threads are scheduled. -/
theorem UploadMedias_empty_is_noop (IsLocalSize : Media_Size → Bool)
    (media_iter : MediaIterator) (uploader : Uploader) (sessions : List Session)
    (schedule : List Event)
    (hempty : LocalHandles IsLocalSize media_iter = []) :
    UploadMedias IsLocalSize media_iter uploader sessions schedule = some uploader ∧
      ∀ u, UploadMedias IsLocalSize media_iter uploader sessions schedule = some u →
        u.registrations = uploader.registrations ∧ u.listeners = uploader.listeners ∧
        u.batches = uploader.batches := by
  have h : UploadMedias IsLocalSize media_iter uploader sessions schedule = some uploader := by
    simp [UploadMedias, hempty]
  refine ⟨h, ?_⟩
  intro u hu
  rw [h] at hu
  cases hu
  exact ⟨rfl, rfl, rfl⟩

/-- Witness of C9: a catalogue whose only records are a media with a remote
size and a record that fails to read; the call returns before any thread has
taken a step and the registration count stays 0. -/
theorem UploadMedias_empty_is_noop_witness :
    UploadMedias sampleIsLocalSize ((sampleRecords.drop 1).take 2) freshUploader sampleSessions []
        = some freshUploader ∧
      freshUploader.registrations = 0 :=
  ⟨(UploadMedias_empty_is_noop sampleIsLocalSize ((sampleRecords.drop 1).take 2) freshUploader
      sampleSessions [] (by decide)).1, rfl⟩

/-! ## The blocking wrappers -/

theorem stuck_after_lost_notification {σ : Type} (effect : σ → σ) (st : Wait σ)
    (hc : st.caller = CallerPc.waiting) (hcb : st.callback = CallbackPc.done)
    (threads : List Thread) :
    Wait.run effect st (threads.map Event.run) = st := by
  induction threads with
  | nil => rfl
  | cons t rest ih =>
    have hstep : st.step effect (Event.run t) = st := by
      cases t <;> simp [Wait.step, Wait.stepCaller, Wait.stepCallback, hc, hcb]
    simp only [Wait.run, List.map_cons, List.foldl_cons, hstep]
    exact ih

/-- C10, evaluated on the code. `cond.wait(lck)` is called without a predicate.
When the callback runs to its end before the caller reaches the wait, the caller
then blocks and no further step of either thread releases it: `OpenModel` never
returns. And a spurious wake-up lets `OpenModel` return while the callback has
not run. -/
theorem wait_has_no_predicate :
    (OpenModel.wait ⟨0, ""⟩ scheduleCallbackFirst).callback = CallbackPc.done ∧
    (∀ threads : List Thread,
      OpenModel ⟨0, ""⟩ (scheduleCallbackFirst ++ threads.map Event.run) = none) ∧
    OpenModel ⟨0, ""⟩ scheduleSpurious = some () ∧
    (OpenModel.wait ⟨0, ""⟩ scheduleSpurious).callback = CallbackPc.pending := by
  refine ⟨by decide, ?_, by decide, by decide⟩
  intro threads
  have hst : Wait.run id (Wait.run id (Wait.init ()) scheduleCallbackFirst)
      (threads.map Event.run) = Wait.run id (Wait.init ()) scheduleCallbackFirst :=
    stuck_after_lost_notification id _ (by decide) (by decide) threads
  unfold OpenModel OpenModel.wait
  have happ : Wait.run id (Wait.init ()) (scheduleCallbackFirst ++ threads.map Event.run) =
      Wait.run id (Wait.run id (Wait.init ()) scheduleCallbackFirst) (threads.map Event.run) := by
    simp [Wait.run, List.foldl_append]
  rw [happ, hst]
  decide

/-! ## The capture date -/

/-- C5, evaluated on the code. The text `20150611 100000` does not match the
pattern: `strptime` fails after the year, `ReadExifDate` does not look at its
result and returns `timegm` of the fields converted so far, 1419984000
(2014-12-31 00:00:00), not 0. A text that fails at its first character, such
as `abc`, gives `timegm` of the zeroed `struct tm`, -2209075200. -/
theorem ReadExifDate_malformed_not_zero :
    (strptime "20150611 100000".toList (parseFormat DATE_TIME_FORMAT) tm.zero).1 = none ∧
      ReadExifDate (dateTimeOnly "20150611 100000") = 1419984000 ∧
      (strptime "abc".toList (parseFormat DATE_TIME_FORMAT) tm.zero).1 = none ∧
      ReadExifDate (dateTimeOnly "abc") = -2209075200 := by
  decide

end LibrfmExample
